import Mathlib

/-!
Verification of the excel2django import command
(`excel2django/management/commands/excel2django.py`) against its
natural-language specification.  The Python source is shallowly embedded:
pure fragments become Lean functions, Python exceptions become
`Except PyErr`, Python dictionaries become insertion-ordered association
lists, and the Django object store is abstracted as a record of response
functions while every store interaction performed by the code is logged
explicitly.
-/

set_option autoImplicit false

namespace Excel2Django

/-! ## Python value model -/

/-- Model of the Python scalar and container values the command handles.
Objects returned by the Django ORM are identified by a `Nat` id. -/
inductive PyValue where
  | none : PyValue
  | str : String → PyValue
  | int : Int → PyValue
  | bool : Bool → PyValue
  | obj : Nat → PyValue
  | list : List PyValue → PyValue
  | dict : List (String × PyValue) → PyValue

/-- Python truthiness: `None`, the empty string, zero, `False` and empty
containers are falsy; ORM objects are truthy. -/
def truthy : PyValue → Bool
  | PyValue.none => false
  | PyValue.str s => s ≠ ""
  | PyValue.int n => n ≠ 0
  | PyValue.bool b => b
  | PyValue.obj _ => true
  | PyValue.list xs => !xs.isEmpty
  | PyValue.dict kvs => !kvs.isEmpty

mutual

/-- Python `==` on the modelled values.  Python compares `bool` and `int`
numerically (`True == 1`); container equality is element-wise (our dict
comparison is order-sensitive, which agrees with Python whenever the two
dicts were built in the same key order, the only way they arise here). -/
def pyEq : PyValue → PyValue → Bool
  | PyValue.none, PyValue.none => true
  | PyValue.str a, PyValue.str b => a == b
  | PyValue.int a, PyValue.int b => a == b
  | PyValue.bool a, PyValue.bool b => a == b
  | PyValue.int a, PyValue.bool b => a == (if b then (1 : Int) else 0)
  | PyValue.bool a, PyValue.int b => (if a then (1 : Int) else 0) == b
  | PyValue.obj a, PyValue.obj b => a == b
  | PyValue.list a, PyValue.list b => pyEqList a b
  | PyValue.dict a, PyValue.dict b => pyEqDict a b
  | _, _ => false

def pyEqList : List PyValue → List PyValue → Bool
  | [], [] => true
  | x :: xs, y :: ys => pyEq x y && pyEqList xs ys
  | _, _ => false

def pyEqDict : List (String × PyValue) → List (String × PyValue) → Bool
  | [], [] => true
  | (k1, v1) :: xs, (k2, v2) :: ys => k1 == k2 && pyEq v1 v2 && pyEqDict xs ys
  | _, _ => false

end

/-- The Python exceptions (and exception-like control signals) that the
command can raise.  `ignoreObject` is the `IgnoreObject` exception class
defined at the top of the source file. -/
inductive PyErr where
  | typeError : PyErr
  | valueError : PyErr
  | keyError : PyErr
  | nameError : PyErr
  | lookupError : PyErr
  | ignoreObject : PyErr
  | userCancelled : PyErr
deriving DecidableEq

/-! ## Association lists as Python dictionaries -/

/-- First-match lookup in an insertion-ordered association list
(Python `d[k]` / `k in d` on dictionaries). -/
def lookupA {α : Type} : List (String × α) → String → Option α
  | [], _ => Option.none
  | (k, v) :: rest, key => if k = key then some v else lookupA rest key

/-- Python dictionary assignment `d[k] = v`: replace the value at an
existing key in place, otherwise append the new binding at the end. -/
def dictUpdate {α : Type} : List (String × α) → String → α → List (String × α)
  | [], k, v => [(k, v)]
  | (k0, v0) :: rest, k, v =>
      if k0 = k then (k, v) :: rest else (k0, v0) :: dictUpdate rest k v

/-- Building a Python dict from an ordered sequence of key-value pairs
(dict comprehension semantics: a later duplicate key overwrites). -/
def dictOfList {α : Type} (ps : List (String × α)) : List (String × α) :=
  ps.foldl (fun d p => dictUpdate d p.1 p.2) []

/-! ## Python string helpers

The source only ever splits on the single-character separators `:` and
`.`, so the Python `str.split`/`str.rsplit` calls are embedded via a
character-level splitter (structural, hence computable by `rfl`). -/

/-- Split a character list at every occurrence of `sep`
(Python `s.split(sep)` for a one-character separator). -/
def splitOnChar (sep : Char) : List Char → List (List Char)
  | [] => [[]]
  | c :: cs =>
      let r := splitOnChar sep cs
      if c = sep then [] :: r
      else
        match r with
        | [] => [[c]]
        | x :: xs => (c :: x) :: xs

/-- Join character lists with the separator (used to rebuild the
remainder of a `maxsplit=1` split). -/
def joinWithChar (sep : Char) : List (List Char) → List Char
  | [] => []
  | [x] => x
  | x :: xs => x ++ sep :: joinWithChar sep xs

/-- Python `a, b = s.split(sep, 1)`: split at the first occurrence of the
separator; unpacking raises `ValueError` when the separator is absent. -/
def pySplit1 (s : String) (sep : Char) : Except PyErr (String × String) :=
  match splitOnChar sep s.data with
  | [] => Except.error PyErr.valueError
  | [_] => Except.error PyErr.valueError
  | x :: rest => Except.ok (String.mk x, String.mk (joinWithChar sep rest))

/-- Python `a, b = s.rsplit(sep, 1)`: split at the last occurrence of the
separator; unpacking raises `ValueError` when the separator is absent. -/
def pyRSplit1 (s : String) (sep : Char) : Except PyErr (String × String) :=
  match (splitOnChar sep s.data).reverse with
  | [] => Except.error PyErr.valueError
  | [_] => Except.error PyErr.valueError
  | last :: restRev =>
      Except.ok (String.mk (joinWithChar sep restRev.reverse), String.mk last)

/-- Python `s.split(sep, 1)[0]`: everything before the first separator
(the whole string when the separator is absent). -/
def pySplitHead (s : String) (sep : Char) : String :=
  match splitOnChar sep s.data with
  | [] => ""
  | x :: _ => String.mk x

/-- Python `s.startswith(c)` for a one-character needle. -/
def pyStartsWith (s : String) (c : Char) : Bool :=
  match s.data with
  | [] => false
  | c0 :: _ => c0 = c

/-- Python `s[1:]`. -/
def pyDropFirst (s : String) : String :=
  String.mk (s.data.drop 1)

/-- Python `s.lower()` (ASCII is all the source compares). -/
def pyLower (s : String) : String :=
  String.mk (s.data.map Char.toLower)

/-! ## RangeSet: `combine_ranges` and `range_overlap`

Row ranges are pairs `(start, end)` of `Option Int`; `Option.none` is the
Python `None` produced by an empty bound.  Python comparisons involving
`None` raise `TypeError`, which the embedding makes explicit. -/

/-- A row range as built in `Command.handle`: both bounds optional. -/
abbrev OptRange := Option Int × Option Int

/-- Python `a < b` on `int`-or-`None` values: comparing `None` with
anything (including `None`) raises `TypeError`. -/
def pyLtOpt : Option Int → Option Int → Except PyErr Bool
  | some x, some y => Except.ok (decide (x < y))
  | _, _ => Except.error PyErr.typeError

/-- Python `a > b` on `int`-or-`None` values. -/
def pyGtOpt : Option Int → Option Int → Except PyErr Bool
  | some x, some y => Except.ok (decide (x > y))
  | _, _ => Except.error PyErr.typeError

/-- Python `<` on the range tuples: lexicographic, using `==` (which is
total, `None == None` holds) before falling back to the element `<`. -/
def pyLtPair (p q : OptRange) : Except PyErr Bool :=
  if p.1 = q.1 then
    if p.2 = q.2 then Except.ok false else pyLtOpt p.2 q.2
  else pyLtOpt p.1 q.1

/-- Insert into a sorted prefix using the Python `<` comparison
(stable: an element is placed after existing equal elements). -/
def pyInsertSorted (x : OptRange) : List OptRange → Except PyErr (List OptRange)
  | [] => Except.ok [x]
  | y :: ys =>
      match pyLtPair x y with
      | Except.error e => Except.error e
      | Except.ok true => Except.ok (x :: y :: ys)
      | Except.ok false =>
          match pyInsertSorted x ys with
          | Except.error e => Except.error e
          | Except.ok r => Except.ok (y :: r)

/-- Python `sorted` on range tuples (a stable comparison sort;
comparison failures propagate as `TypeError`). -/
def pySorted : List OptRange → Except PyErr (List OptRange)
  | [] => Except.ok []
  | x :: xs =>
      match pySorted xs with
      | Except.error e => Except.error e
      | Except.ok r => pyInsertSorted x r

/-- `contains` from `range_overlap`: whether point `i` lies in the closed
range, an absent bound matching unconditionally on its side.  The Python
comparisons `i <= end`, `start <= i` raise `TypeError` when `i` is `None`
and the corresponding bound is an `int`. -/
def containsPoint (start e i : Option Int) : Except PyErr Bool :=
  match start, e with
  | Option.none, Option.none => Except.ok true
  | Option.none, some e1 =>
      match i with
      | some i1 => Except.ok (decide (i1 ≤ e1))
      | Option.none => Except.error PyErr.typeError
  | some s1, Option.none =>
      match i with
      | some i1 => Except.ok (decide (s1 ≤ i1))
      | Option.none => Except.error PyErr.typeError
  | some s1, some e1 =>
      match i with
      | some i1 => Except.ok (decide (s1 ≤ i1) && decide (i1 ≤ e1))
      | Option.none => Except.error PyErr.typeError

/-- `range_overlap(start1, end1, start2, end2)` with Python `or`
short-circuiting (a later `TypeError` is not reached when an earlier
disjunct is already true). -/
def range_overlap (s1 e1 s2 e2 : Option Int) : Except PyErr Bool :=
  match containsPoint s1 e1 s2 with
  | Except.error e => Except.error e
  | Except.ok true => Except.ok true
  | Except.ok false =>
      match containsPoint s1 e1 e2 with
      | Except.error e => Except.error e
      | Except.ok true => Except.ok true
      | Except.ok false =>
          match containsPoint s2 e2 s1 with
          | Except.error e => Except.error e
          | Except.ok true => Except.ok true
          | Except.ok false => containsPoint s2 e2 e1

/-- The fold of `combine_ranges` over the sorted ranges.  `combined` is
carried in order; its last element is the merge candidate.  When the code
reaches `combined[-1][1] = r[1]` it assigns into a tuple, which raises
`TypeError`; the guard `r[1] > combined[-1][1]` itself raises `TypeError`
when either end is `None`. -/
def combineLoop : List OptRange → List OptRange → Except PyErr (List OptRange)
  | [], combined => Except.ok combined
  | r :: rs, [] => combineLoop rs [r]
  | r :: rs, combined@(_ :: _) =>
      match combined.getLast? with
      | Option.none => Except.error PyErr.typeError
      | some last =>
          match range_overlap last.1 last.2 r.1 r.2 with
          | Except.error e => Except.error e
          | Except.ok false => combineLoop rs (combined ++ [r])
          | Except.ok true =>
              match pyGtOpt r.2 last.2 with
              | Except.error e => Except.error e
              | Except.ok true => Except.error PyErr.typeError
              | Except.ok false => combineLoop rs combined

/-- `combine_ranges(ranges)`: sort, then fold, merging overlapping
ranges into the last kept one. -/
def combine_ranges (ranges : List OptRange) : Except PyErr (List OptRange) :=
  match pySorted ranges with
  | Except.error e => Except.error e
  | Except.ok sortedR => combineLoop sortedR []

/-! ## The Django app registry and the FieldSpec parser -/

/-- The slice of Django model metadata the command consults:
`apps.get_model` resolves `(app_label, model_name)` to a model whose
`_meta.get_field` knows, for each field name, whether the field is a
reverse/generic relation (`ForeignObjectRel` / `GenericRelation`). -/
structure PyModel where
  app_label : String
  model_name : String
  concreteFieldNames : List String
  relationFieldNames : List String
deriving DecidableEq

/-- `apps.get_model(app_label, model_name)`; Django matches the model
name case-insensitively.  An unknown app or model raises `LookupError`. -/
def get_model (apps : List PyModel) (label name : String) : Option PyModel :=
  apps.find? (fun m => m.app_label = label && pyLower m.model_name = pyLower name)

/-- Field metadata as returned by `_meta.get_field`. -/
structure FieldMeta where
  name : String
  isRelation : Bool
deriving DecidableEq

/-- `model._meta.get_field(field)`; raises `FieldDoesNotExist` (a
`LookupError`) for unknown field names. -/
def get_field (m : PyModel) (field : String) : Option FieldMeta :=
  if field ∈ m.concreteFieldNames then some ⟨field, false⟩
  else if field ∈ m.relationFieldNames then some ⟨field, true⟩
  else Option.none

/-- The per-field entry of a ModelDefinition, generic in the expression
representation `E` (the source stores the raw Python expression string;
proofs also instantiate `E` with evaluated denotations). -/
structure FieldDescr (E : Type) where
  modelfield : FieldMeta
  expression : E
  is_natural_key : Bool

/-- One entry of `modeldefinitions`: the resolved model plus the ordered
field dictionary. -/
structure ModelEntry (E : Type) where
  model : PyModel
  fields : List (String × FieldDescr E)

/-- The `modeldefinitions` registry, keyed by the `app_model` string
(app label, model name and optional group, dot-joined). -/
abbrev Registry (E : Type) := List (String × ModelEntry E)

/-- One iteration of the `--field` parsing loop (source lines 102-119):
split the directive at the first `:`, split the field specification at
the last `.`, test for the natural-key marker character `*` and strip it,
split off the app label, create the registry entry on first sight of the
model path (resolving the model via `apps.get_model`), and assign the
field descriptor (overwriting any previous directive for the same
field). -/
def parseFieldArg (apps : List PyModel) (reg : Registry String) (fieldarg : String) :
    Except PyErr (Registry String) :=
  match pySplit1 fieldarg ':' with
  | Except.error e => Except.error e
  | Except.ok (fieldspec, valueexpr) =>
    match pyRSplit1 fieldspec '.' with
    | Except.error e => Except.error e
    | Except.ok (app_model0, field) =>
      let is_natural_key := pyStartsWith app_model0 '*'
      let app_model := if is_natural_key then pyDropFirst app_model0 else app_model0
      match pySplit1 app_model '.' with
      | Except.error e => Except.error e
      | Except.ok (app_label, modelname) =>
        let regStep : Except PyErr (Registry String) :=
          match lookupA reg app_model with
          | some _ => Except.ok reg
          | Option.none =>
              match get_model apps app_label (pySplitHead modelname '.') with
              | some m => Except.ok (reg ++ [(app_model, ⟨m, []⟩)])
              | Option.none => Except.error PyErr.lookupError
        match regStep with
        | Except.error e => Except.error e
        | Except.ok reg1 =>
          match lookupA reg1 app_model with
          | Option.none => Except.error PyErr.lookupError
          | some entry =>
            match get_field entry.model field with
            | Option.none => Except.error PyErr.lookupError
            | some meta =>
                Except.ok (dictUpdate reg1 app_model
                  { entry with
                    fields := dictUpdate entry.fields field
                      ⟨meta, valueexpr, is_natural_key⟩ })

/-- The whole `--field` parsing loop. -/
def parseDirectivesFrom (apps : List PyModel) : List String → Registry String →
    Except PyErr (Registry String)
  | [], reg => Except.ok reg
  | fieldarg :: rest, reg =>
      match parseFieldArg apps reg fieldarg with
      | Except.error e => Except.error e
      | Except.ok reg1 => parseDirectivesFrom apps rest reg1

/-- Parse all `--field` directives into the `modeldefinitions` registry. -/
def parseDirectives (apps : List PyModel) (args : List String) :
    Except PyErr (Registry String) :=
  parseDirectivesFrom apps args []

/-- The post-parse normalization of one ModelDefinition (source lines
121-129): when no field of the model was marked natural-key, every field
becomes part of the natural key. -/
def promoteEntry {E : Type} (e : ModelEntry E) : ModelEntry E :=
  if e.fields.any (fun p => p.2.is_natural_key) then e
  else { e with fields := e.fields.map (fun p => (p.1, { p.2 with is_natural_key := true })) }

/-- The normalization loop over the whole registry, run once after all
directives are parsed and before any row is processed. -/
def promoteNaturalKeys {E : Type} (reg : Registry E) : Registry E :=
  reg.map (fun p => (p.1, promoteEntry p.2))

/-! ## The object store and the resolver `importinstance`

The Django ORM is an external collaborator; it is abstracted as a record
of response functions, and every store interaction that the resolver
performs is logged as a `StoreCall` so that "performs no store calls" is
a statement about the log. -/

/-- A row context: column letter to (whitespace-stripped) cell value. -/
abbrev Row := List (String × PyValue)

/-- The store responses `importinstance` and `ref` depend on. -/
structure Store where
  filterFirst : PyModel → List (String × PyValue) → Option Nat
  updateOrCreate : PyModel → List (String × PyValue) → List (String × PyValue) → Nat
  relFilterFirst : Nat → String → List (String × PyValue) → Option Nat

/-- The store interactions the resolver can perform, in order. -/
inductive StoreCall where
  | filterFirst : PyModel → List (String × PyValue) → StoreCall
  | updateOrCreate : PyModel → List (String × PyValue) → List (String × PyValue) → StoreCall
  | save : Nat → StoreCall
  | relAdd : Nat → String → List PyValue → StoreCall
  | relFilterFirst : Nat → String → List (String × PyValue) → StoreCall
  | relCreate : Nat → String → List (String × PyValue) → StoreCall

/-- Evaluate the field expressions of a filtered field list into the
ordered key-value pairs of a Python dict comprehension keyed by
`f.modelfield.name` (errors propagate from the first failing entry). -/
def evalPairs {E : Type} (ev : E → Row → Except PyErr PyValue) (row : Row) :
    List (String × FieldDescr E) → Except PyErr (List (String × PyValue))
  | [] => Except.ok []
  | p :: ps =>
      match ev p.2.expression row with
      | Except.error e => Except.error e
      | Except.ok v =>
          match evalPairs ev row ps with
          | Except.error e => Except.error e
          | Except.ok rest => Except.ok ((p.2.modelfield.name, v) :: rest)

/-- The inner loop of the collection-relation step: for each element of
the evaluated sequence that is a keyword dict, look the child up on the
relation manager and create it only when absent (source lines 224-232).
A non-dict element makes the `filter(**args)` call raise `TypeError`. -/
def relCreateLoop (st : Store) (o : Nat) (rel : String) :
    List PyValue → Except PyErr (List StoreCall)
  | [] => Except.ok []
  | a :: rest =>
      match a with
      | PyValue.dict kwargs =>
          let calls :=
            match st.relFilterFirst o rel kwargs with
            | some _ => [StoreCall.relFilterFirst o rel kwargs]
            | Option.none => [StoreCall.relFilterFirst o rel kwargs,
                              StoreCall.relCreate o rel kwargs]
          match relCreateLoop st o rel rest with
          | Except.error e => Except.error e
          | Except.ok more => Except.ok (calls ++ more)
      | _ => Except.error PyErr.typeError

/-- The collection-relation loop of `importinstance` (source lines
211-232), iterating over the relation-backed fields: evaluate the
expression; when the result is truthy, persist the parent first, then
either associate existing objects directly (the first element is a model
instance) or create-if-absent from keyword dicts.  A truthy non-sequence
result raises `TypeError` at the subscript `object_list[0]`. -/
def relStep (st : Store) (newobject : Nat) (relname : String) (object_list : PyValue) :
    Except PyErr (List StoreCall) :=
  if truthy object_list then
    match object_list with
    | PyValue.list (x :: restL) =>
        match x with
        | PyValue.obj _ =>
            Except.ok [StoreCall.save newobject,
                       StoreCall.relAdd newobject relname (x :: restL)]
        | _ =>
            match relCreateLoop st newobject relname (x :: restL) with
            | Except.error e => Except.error e
            | Except.ok cs => Except.ok (StoreCall.save newobject :: cs)
    | _ => Except.error PyErr.typeError
  else Except.ok []

/-- The iteration of the collection-relation loop over the
relation-backed fields. -/
def relLoop {E : Type} (st : Store) (ev : E → Row → Except PyErr PyValue) (row : Row)
    (newobject : Nat) :
    List (String × FieldDescr E) → Except PyErr (List StoreCall)
  | [] => Except.ok []
  | p :: ps =>
      match ev p.2.expression row with
      | Except.error e => Except.error e
      | Except.ok object_list =>
          match relStep st newobject p.2.modelfield.name object_list with
          | Except.error e => Except.error e
          | Except.ok calls =>
              match relLoop st ev row newobject ps with
              | Except.error e => Except.error e
              | Except.ok more => Except.ok (calls ++ more)

/-- `importinstance(model, rowcontext)` (source lines 190-234).  The
result pairs the returned `(newversion, oldversion)` values with the log
of store calls performed.  The skip path `return None, False` is the pair
`(PyValue.none, PyValue.bool false)` with an empty log. -/
def importinstance {E : Type} (st : Store) (model : ModelEntry E)
    (ev : E → Row → Except PyErr PyValue) (rowcontext : Row) :
    Except PyErr ((PyValue × PyValue) × List StoreCall) :=
  match evalPairs ev rowcontext (model.fields.filter (fun p => p.2.is_natural_key)) with
  | Except.error e => Except.error e
  | Except.ok nkPairs =>
    let naturalkey_values := dictOfList nkPairs
    if ¬ (naturalkey_values.all (fun p => truthy p.2)) then
      Except.ok ((PyValue.none, PyValue.bool false), [])
    else
      match evalPairs ev rowcontext (model.fields.filter
          (fun p => !p.2.is_natural_key && !p.2.modelfield.isRelation)) with
      | Except.error e => Except.error e
      | Except.ok dfPairs =>
        let default_values := dictOfList dfPairs
        let oldobject := st.filterFirst model.model naturalkey_values
        let newobject := st.updateOrCreate model.model default_values naturalkey_values
        match relLoop st ev rowcontext newobject
            (model.fields.filter (fun p => p.2.modelfield.isRelation)) with
        | Except.error e => Except.error e
        | Except.ok relCalls =>
            Except.ok ((PyValue.obj newobject,
                match oldobject with
                | some o => PyValue.obj o
                | Option.none => PyValue.none),
              [StoreCall.filterFirst model.model naturalkey_values,
               StoreCall.updateOrCreate model.model default_values naturalkey_values]
                ++ relCalls)

/-- The evaluator used for claims that quantify over model definitions
whose expressions are given by their denotations (an expression that
evaluates to a value on every row). -/
def evalDenote (f : Row → PyValue) (row : Row) : Except PyErr PyValue :=
  Except.ok (f row)

/-! ## The per-row driver loop -/

/-- `model_import_order` (source lines 271-273): declaration order. -/
def model_import_order {E : Type} (reg : Registry E) : List String :=
  reg.map Prod.fst

/-- The per-row loop of `Command.handle` (source lines 142-151), with the
call `importinstance(modeldefinitions[model], rowcontext)` abstracted as
`res`.  The Python locals `newversion, oldversion` are modelled by an
`Option` state: they are unbound before the first successful assignment,
and reading them then raises `NameError`.  When `res` raises
`IgnoreObject` the handler passes and the stale values from the previous
iteration are re-examined; any other exception propagates. -/
def rowLoop (res : String → Except PyErr (PyValue × PyValue)) :
    List String → Option (PyValue × PyValue) → List (PyValue × PyValue) →
    Except PyErr (List (PyValue × PyValue))
  | [], _, objects => Except.ok objects
  | m :: ms, vars, objects =>
      match res m with
      | Except.error PyErr.ignoreObject =>
          match vars with
          | Option.none => Except.error PyErr.nameError
          | some (nv, ov) =>
              rowLoop res ms (some (nv, ov))
                (match nv with
                 | PyValue.none => objects
                 | _ => objects ++ [(nv, ov)])
      | Except.error e => Except.error e
      | Except.ok (nv, ov) =>
          rowLoop res ms (some (nv, ov))
            (match nv with
             | PyValue.none => objects
             | _ => objects ++ [(nv, ov)])

/-! ## The object diff of the report loop -/

/-- Python `d[k]` on a dict: `KeyError` when the key is absent. -/
def pyDictGet (d : List (String × PyValue)) (k : String) : Except PyErr PyValue :=
  match lookupA d k with
  | some v => Except.ok v
  | Option.none => Except.error PyErr.keyError

/-- `olddict.keys() ^ newdict.keys()`: the symmetric difference of the
key sets (an arbitrary set order in Python; listed here as the keys only
in `olddict` followed by the keys only in `newdict`). -/
def symDiffKeys (olddict newdict : List (String × PyValue)) : List String :=
  (olddict.map Prod.fst).filter (fun k => (lookupA newdict k).isNone)
    ++ (newdict.map Prod.fst).filter (fun k => (lookupA olddict k).isNone)

/-- The `changedfields` comprehension (source lines 159-163): for each
key of the symmetric difference, evaluate `newdict[k] != olddict[k]`
(`newdict[k]` first, as Python does) and keep the key when the values
differ.  Since every key of the symmetric difference is missing from one
of the two dicts, any nonempty symmetric difference raises `KeyError`. -/
def changedFieldsLoop (olddict newdict : List (String × PyValue)) :
    List String → Except PyErr (List String)
  | [] => Except.ok []
  | k :: ks =>
      match pyDictGet newdict k with
      | Except.error e => Except.error e
      | Except.ok nv =>
          match pyDictGet olddict k with
          | Except.error e => Except.error e
          | Except.ok ov =>
              match changedFieldsLoop olddict newdict ks with
              | Except.error e => Except.error e
              | Except.ok rest =>
                  Except.ok (if pyEq nv ov then rest else k :: rest)

/-- The object diff computed by the report loop (source lines 155-172):
the changed-field map contributed to the `changes` string, the removed
keys (`olddict.keys() - newdict.keys()`) and the added keys
(`newdict.keys() - olddict.keys()`).  The printed `changes` string is
empty, and the driver reports "No changes", exactly when all three
components are empty. -/
def objectDiff (olddict newdict : List (String × PyValue)) :
    Except PyErr (List (String × PyValue) × List String × List String) :=
  match changedFieldsLoop olddict newdict (symDiffKeys olddict newdict) with
  | Except.error e => Except.error e
  | Except.ok changedfields =>
      let changedMap := changedfields.filterMap
        (fun k => (lookupA newdict k).map (fun v => (k, v)))
      let removed := (olddict.map Prod.fst).filter (fun k => (lookupA newdict k).isNone)
      let added := (newdict.map Prod.fst).filter (fun k => (lookupA olddict k).isNone)
      Except.ok (changedMap, removed, added)

/-! ## The end-of-session confirmation -/

/-- The option keys present in every invocation: `add_arguments` (source
lines 17-78) registers these destinations and argparse assigns every
registered destination a value in the parsed options namespace, so in
particular the key `yes` (default `False`) is always present in the
`options` dict that `handle` receives. -/
def optionKeys : List String := ["import_file", "rows", "field", "sheet", "yes"]

/-- Outcome of the confirmation block: whether `input()` was called and
whether the cancellation exception was raised. -/
structure ConfirmOutcome where
  prompted : Bool
  cancelled : Bool
deriving DecidableEq

/-- The confirmation block of `Command.handle` (source lines 179-182):
`if "yes" not in options:` ask, and raise when the lowered answer is
neither empty nor `y`.  Note the test is key membership in the options
dict, not the value of the `--yes` flag. -/
def confirmationStep (options_keys : List String) (answer : String) : ConfirmOutcome :=
  if "yes" ∉ options_keys then
    ⟨true, !(pyLower answer = "" || pyLower answer = "y")⟩
  else ⟨false, false⟩

/-! ## The expression-evaluation environment

`_extract_fieldvalue` (source lines 237-238) runs
`eval(expression, globals, rowcontext)` where the globals dict binds the
names `ref` and `vmap`. -/

/-- The keys of the globals dict passed to `eval` at source line 238. -/
def evalGlobalNames : List String := ["ref", "vmap"]

/-- Names of the Python builtins reachable from the expression
environment.  CPython inserts a reference to the `builtins` module under
the key `__builtins__` whenever the globals dict given to `eval` lacks
that key, as the one at source line 238 does; the command help text
(source line 54) likewise states that the Python builtins are available
to expressions.  We model a representative finite subset of the builtin
names. -/
def builtinNames : List String :=
  ["abs", "len", "min", "max", "sum", "str", "int", "bool", "float",
   "round", "sorted", "getattr", "open", "eval", "__import__"]

/-- What a name occurring in a field expression resolves to. -/
inductive NameHit where
  | rowBinding : PyValue → NameHit
  | helperBinding : String → NameHit
  | builtinBinding : String → NameHit

/-- Name resolution inside the evaluated expression: locals (the row
context) first, then the supplied globals (`ref`, `vmap`), then the
builtins module that CPython injected. -/
def lookupName (row : Row) (n : String) : Option NameHit :=
  match lookupA row n with
  | some v => some (NameHit.rowBinding v)
  | Option.none =>
      if n ∈ evalGlobalNames then some (NameHit.helperBinding n)
      else if n ∈ builtinNames then some (NameHit.builtinBinding n)
      else Option.none

/-! ## The transformation helpers `ref`, `vmap`, `noempty` -/

/-- `vmap(_input, *mappings)` (source lines 296-300): the first mapped
value whose key equals the input, else the input unchanged. -/
def vmap (input : PyValue) : List (PyValue × PyValue) → PyValue
  | [] => input
  | (key, value) :: rest => if pyEq input key then value else vmap input rest

/-- `ref(modelname, **kwargs)` (source lines 286-287):
`apps.get_model(*modelname.split("."))` followed by a first-match filter;
no match is `None`, not an error.  A model path without exactly one dot
makes the `get_model` call fail (modelled as `TypeError`), and an
unregistered model raises `LookupError`. -/
def ref (apps : List PyModel) (st : Store) (modelname : String)
    (kwargs : List (String × PyValue)) : Except PyErr PyValue :=
  match splitOnChar '.' modelname.data with
  | [a, b] =>
      match get_model apps (String.mk a) (String.mk b) with
      | some m =>
          Except.ok
            (match st.filterFirst m kwargs with
             | some o => PyValue.obj o
             | Option.none => PyValue.none)
      | Option.none => Except.error PyErr.lookupError
  | _ => Except.error PyErr.typeError

/-- `noempty(value)` (source lines 290-293): raises `IgnoreObject` on the
empty string, otherwise passes the value through.  It is the only
function in the module that raises `IgnoreObject`. -/
def noempty (value : PyValue) : Except PyErr PyValue :=
  if pyEq value (PyValue.str "") then Except.error PyErr.ignoreObject
  else Except.ok value

/-! ## Expressions built from the documented helper set

The command documents the expression vocabulary as the row-context
column variables plus the helpers `ref` and `vmap` (with literal
arguments and nested helper calls).  `HExpr` is that language;
`evalH` evaluates it under the environment of `_extract_fieldvalue`. -/

mutual

inductive HExpr where
  | var : String → HExpr
  | lit : PyValue → HExpr
  | refCall : HExpr → HKwargs → HExpr
  | vmapCall : HExpr → HPairs → HExpr

inductive HKwargs where
  | nil : HKwargs
  | cons : String → HExpr → HKwargs → HKwargs

inductive HPairs where
  | nil : HPairs
  | cons : HExpr → HExpr → HPairs → HPairs

end

mutual

/-- Evaluate a helper-set expression.  A column variable resolves
through the row context (the helper names occur only in call position in
this language, and an unbound name is a `NameError`); `ref` requires its
first argument to evaluate to a string model path. -/
def evalH (apps : List PyModel) (st : Store) (row : Row) : HExpr → Except PyErr PyValue
  | HExpr.var n =>
      match lookupA row n with
      | some v => Except.ok v
      | Option.none => Except.error PyErr.nameError
  | HExpr.lit v => Except.ok v
  | HExpr.refCall me ks =>
      match evalH apps st row me with
      | Except.error e => Except.error e
      | Except.ok mv =>
          match evalHKwargs apps st row ks with
          | Except.error e => Except.error e
          | Except.ok kvs =>
              match mv with
              | PyValue.str s => ref apps st s kvs
              | _ => Except.error PyErr.typeError
  | HExpr.vmapCall ie ms =>
      match evalH apps st row ie with
      | Except.error e => Except.error e
      | Except.ok iv =>
          match evalHPairs apps st row ms with
          | Except.error e => Except.error e
          | Except.ok mvs => Except.ok (vmap iv mvs)

/-- Evaluate the keyword arguments of a `ref` call, left to right. -/
def evalHKwargs (apps : List PyModel) (st : Store) (row : Row) :
    HKwargs → Except PyErr (List (String × PyValue))
  | HKwargs.nil => Except.ok []
  | HKwargs.cons n e rest =>
      match evalH apps st row e with
      | Except.error err => Except.error err
      | Except.ok v =>
          match evalHKwargs apps st row rest with
          | Except.error err => Except.error err
          | Except.ok vs => Except.ok ((n, v) :: vs)

/-- Evaluate the mapping pairs of a `vmap` call, left to right. -/
def evalHPairs (apps : List PyModel) (st : Store) (row : Row) :
    HPairs → Except PyErr (List (PyValue × PyValue))
  | HPairs.nil => Except.ok []
  | HPairs.cons s d rest =>
      match evalH apps st row s with
      | Except.error err => Except.error err
      | Except.ok sv =>
          match evalH apps st row d with
          | Except.error err => Except.error err
          | Except.ok dv =>
              match evalHPairs apps st row rest with
              | Except.error err => Except.error err
              | Except.ok rs => Except.ok ((sv, dv) :: rs)

end

/-! ## Concrete instances used by the claim theorems -/

/-- An app registry with the Author model of the worked example in the
command help text. -/
def appsAuthor : List PyModel := [⟨"app", "Author", ["email", "first_name"], []⟩]

/-- An app registry with one model `M` that has two concrete fields and
one collection-relation field. -/
def appsM : List PyModel := [⟨"app", "M", ["a", "b"], ["tags"]⟩]

/-- The registry produced by parsing the single unmarked directive
`app.M.a:A` against `appsM`. -/
def regPromoteW : Registry String :=
  [("app.M", ⟨⟨"app", "M", ["a", "b"], ["tags"]⟩, [("a", ⟨⟨"a", false⟩, "A", false⟩)]⟩)]

/-- A store whose lookups find nothing and whose upsert returns object 0
(the responses are irrelevant to the skip path). -/
def storeEmpty : Store :=
  ⟨fun _ _ => Option.none, fun _ _ _ => 0, fun _ _ _ => Option.none⟩

/-- A one-field ModelDefinition whose natural-key field expression
denotes the empty string on every row. -/
def entryFalsyW : ModelEntry (Row → PyValue) :=
  ⟨⟨"app", "Author", ["email", "first_name"], []⟩,
   [("email", ⟨⟨"email", false⟩, fun _ => PyValue.str "", true⟩)]⟩

/-! ## Lemmas about the dictionary model -/

theorem dictUpdate_not_mem {α : Type} (l : List (String × α)) (k : String) (v : α)
    (h : k ∉ l.map Prod.fst) : dictUpdate l k v = l ++ [(k, v)] := by
  induction l with
  | nil => rfl
  | cons p rest ih =>
      simp only [List.map_cons, List.mem_cons] at h
      push_neg at h
      simp only [dictUpdate]
      rw [if_neg (fun hc => h.1 hc.symm), ih h.2]
      simp

theorem foldl_dictUpdate_nodup {α : Type} (ps : List (String × α)) :
    ∀ acc : List (String × α), (acc.map Prod.fst ++ ps.map Prod.fst).Nodup →
      ps.foldl (fun d p => dictUpdate d p.1 p.2) acc = acc ++ ps := by
  induction ps with
  | nil => intro acc _; simp
  | cons p rest ih =>
      intro acc h
      have hmem : p.1 ∉ acc.map Prod.fst := by
        intro hc
        rcases List.nodup_append.mp h with ⟨-, -, hdis⟩
        exact hdis hc (by simp)
      have h2 : ((acc ++ [p]).map Prod.fst ++ rest.map Prod.fst).Nodup := by
        have h3 := h
        rw [List.map_cons, List.append_cons] at h3
        simpa using h3
      calc (p :: rest).foldl (fun d q => dictUpdate d q.1 q.2) acc
          = rest.foldl (fun d q => dictUpdate d q.1 q.2) (dictUpdate acc p.1 p.2) := by
            simp
        _ = rest.foldl (fun d q => dictUpdate d q.1 q.2) (acc ++ [p]) := by
            rw [dictUpdate_not_mem acc p.1 p.2 hmem]
        _ = (acc ++ [p]) ++ rest := ih (acc ++ [p]) h2
        _ = acc ++ p :: rest := by simp

theorem dictOfList_nodup {α : Type} (ps : List (String × α))
    (h : (ps.map Prod.fst).Nodup) : dictOfList ps = ps := by
  simpa using foldl_dictUpdate_nodup ps [] (by simpa using h)

theorem lookupA_promote {E : Type} (reg : Registry E) (key : String) :
    lookupA (promoteNaturalKeys reg) key = (lookupA reg key).map promoteEntry := by
  induction reg with
  | nil => rfl
  | cons p rest ih =>
      simp only [promoteNaturalKeys, List.map_cons, lookupA]
      by_cases h : p.1 = key
      · simp [h]
      · simpa [h, promoteNaturalKeys] using ih

theorem evalPairs_denote (row : Row) (l : List (String × FieldDescr (Row → PyValue))) :
    evalPairs evalDenote row l
      = Except.ok (l.map (fun p => (p.2.modelfield.name, p.2.expression row))) := by
  induction l with
  | nil => rfl
  | cons p rest ih => simp [evalPairs, evalDenote, ih]

/-! ## Lemmas: nothing in the expression helpers or the resolver raises
`IgnoreObject` unless the evaluator itself does -/

theorem ne_ignore_of_eq_error {α : Type} {f : Except PyErr α} {e : PyErr}
    (hf : f ≠ Except.error PyErr.ignoreObject) (h : f = Except.error e) :
    e ≠ PyErr.ignoreObject := by
  intro he
  exact hf (by rw [h, he])

theorem ref_ne_ignore (apps : List PyModel) (st : Store) (modelname : String)
    (kwargs : List (String × PyValue)) :
    ref apps st modelname kwargs ≠ Except.error PyErr.ignoreObject := by
  unfold ref
  split
  · split <;> simp
  · simp

theorem relCreateLoop_ne_ignore (st : Store) (o : Nat) (rel : String) :
    ∀ l : List PyValue, relCreateLoop st o rel l ≠ Except.error PyErr.ignoreObject
  | [] => by simp [relCreateLoop]
  | a :: rest => by
      have ih := relCreateLoop_ne_ignore st o rel rest
      unfold relCreateLoop
      cases a <;> simp_all
      case dict kwargs =>
        cases h : relCreateLoop st o rel rest with
        | error e => simpa [h] using fun hc => (ne_ignore_of_eq_error ih h) hc
        | ok more => simp [h]

theorem relStep_ne_ignore (st : Store) (newobject : Nat) (relname : String)
    (object_list : PyValue) :
    relStep st newobject relname object_list ≠ Except.error PyErr.ignoreObject := by
  unfold relStep
  split
  · split
    · split
      · simp
      all_goals
        rename_i hx
        cases h : relCreateLoop st newobject relname _ with
        | error e =>
            simpa [h] using
              fun hc => (ne_ignore_of_eq_error (relCreateLoop_ne_ignore st newobject relname _) h) hc
        | ok cs => simp [h]
    · simp
  · simp

theorem relLoop_ne_ignore {E : Type} (st : Store) (ev : E → Row → Except PyErr PyValue)
    (row : Row) (newobject : Nat)
    (hev : ∀ e r, ev e r ≠ Except.error PyErr.ignoreObject) :
    ∀ l : List (String × FieldDescr E),
      relLoop st ev row newobject l ≠ Except.error PyErr.ignoreObject
  | [] => by simp [relLoop]
  | p :: ps => by
      have ih := relLoop_ne_ignore st ev row newobject hev ps
      unfold relLoop
      cases h1 : ev p.2.expression row with
      | error e =>
          simpa using fun hc => (ne_ignore_of_eq_error (hev _ _) h1) hc
      | ok object_list =>
          cases h2 : relStep st newobject p.2.modelfield.name object_list with
          | error e =>
              simpa [h2] using
                fun hc => (ne_ignore_of_eq_error (relStep_ne_ignore st newobject _ _) h2) hc
          | ok calls =>
              cases h3 : relLoop st ev row newobject ps with
              | error e =>
                  simpa [h2, h3] using fun hc => (ne_ignore_of_eq_error ih h3) hc
              | ok more => simp [h2, h3]

theorem evalPairs_ne_ignore {E : Type} (ev : E → Row → Except PyErr PyValue) (row : Row)
    (hev : ∀ e r, ev e r ≠ Except.error PyErr.ignoreObject) :
    ∀ l : List (String × FieldDescr E),
      evalPairs ev row l ≠ Except.error PyErr.ignoreObject
  | [] => by simp [evalPairs]
  | p :: ps => by
      have ih := evalPairs_ne_ignore ev row hev ps
      unfold evalPairs
      cases h1 : ev p.2.expression row with
      | error e =>
          simpa using fun hc => (ne_ignore_of_eq_error (hev _ _) h1) hc
      | ok v =>
          cases h2 : evalPairs ev row ps with
          | error e =>
              simpa [h2] using fun hc => (ne_ignore_of_eq_error ih h2) hc
          | ok rest => simp [h2]

theorem importinstance_ne_ignore {E : Type} (st : Store) (entry : ModelEntry E)
    (ev : E → Row → Except PyErr PyValue) (row : Row)
    (hev : ∀ e r, ev e r ≠ Except.error PyErr.ignoreObject) :
    importinstance st entry ev row ≠ Except.error PyErr.ignoreObject := by
  unfold importinstance
  cases h1 : evalPairs ev row (entry.fields.filter (fun p => p.2.is_natural_key)) with
  | error e =>
      simpa using fun hc => (ne_ignore_of_eq_error (evalPairs_ne_ignore ev row hev _) h1) hc
  | ok nkPairs =>
      simp only []
      split
      · simp
      · cases h2 : evalPairs ev row (entry.fields.filter
            (fun p => !p.2.is_natural_key && !p.2.modelfield.isRelation)) with
        | error e =>
            simpa using
              fun hc => (ne_ignore_of_eq_error (evalPairs_ne_ignore ev row hev _) h2) hc
        | ok dfPairs =>
            cases h3 : relLoop st ev row
                (st.updateOrCreate entry.model (dictOfList dfPairs) (dictOfList nkPairs))
                (entry.fields.filter (fun p => p.2.modelfield.isRelation)) with
            | error e =>
                simpa [h3] using
                  fun hc => (ne_ignore_of_eq_error (relLoop_ne_ignore st ev row _ hev _) h3) hc
            | ok relCalls => simp [h3]

mutual

theorem evalH_ne_ignore (apps : List PyModel) (st : Store) (row : Row) :
    ∀ e : HExpr, evalH apps st row e ≠ Except.error PyErr.ignoreObject
  | HExpr.var n => by
      unfold evalH
      cases h : lookupA row n <;> simp [h]
  | HExpr.lit v => by simp [evalH]
  | HExpr.refCall me ks => by
      have h1 := evalH_ne_ignore apps st row me
      have h2 := evalHKwargs_ne_ignore apps st row ks
      unfold evalH
      cases hm : evalH apps st row me with
      | error e => simpa [hm] using fun hc => (ne_ignore_of_eq_error h1 hm) hc
      | ok mv =>
          cases hk : evalHKwargs apps st row ks with
          | error e => simpa [hm, hk] using fun hc => (ne_ignore_of_eq_error h2 hk) hc
          | ok kvs =>
              cases mv <;> simp [hm, hk]
              case str s => exact ref_ne_ignore apps st s kvs
  | HExpr.vmapCall ie ms => by
      have h1 := evalH_ne_ignore apps st row ie
      have h2 := evalHPairs_ne_ignore apps st row ms
      unfold evalH
      cases hi : evalH apps st row ie with
      | error e => simpa [hi] using fun hc => (ne_ignore_of_eq_error h1 hi) hc
      | ok iv =>
          cases hp : evalHPairs apps st row ms with
          | error e => simpa [hi, hp] using fun hc => (ne_ignore_of_eq_error h2 hp) hc
          | ok mvs => simp [hi, hp]

theorem evalHKwargs_ne_ignore (apps : List PyModel) (st : Store) (row : Row) :
    ∀ ks : HKwargs, evalHKwargs apps st row ks ≠ Except.error PyErr.ignoreObject
  | HKwargs.nil => by simp [evalHKwargs]
  | HKwargs.cons n e rest => by
      have h1 := evalH_ne_ignore apps st row e
      have h2 := evalHKwargs_ne_ignore apps st row rest
      unfold evalHKwargs
      cases he : evalH apps st row e with
      | error err => simpa [he] using fun hc => (ne_ignore_of_eq_error h1 he) hc
      | ok v =>
          cases hr : evalHKwargs apps st row rest with
          | error err => simpa [he, hr] using fun hc => (ne_ignore_of_eq_error h2 hr) hc
          | ok vs => simp [he, hr]

theorem evalHPairs_ne_ignore (apps : List PyModel) (st : Store) (row : Row) :
    ∀ ms : HPairs, evalHPairs apps st row ms ≠ Except.error PyErr.ignoreObject
  | HPairs.nil => by simp [evalHPairs]
  | HPairs.cons s d rest => by
      have h1 := evalH_ne_ignore apps st row s
      have h2 := evalH_ne_ignore apps st row d
      have h3 := evalHPairs_ne_ignore apps st row rest
      unfold evalHPairs
      cases hs : evalH apps st row s with
      | error err => simpa [hs] using fun hc => (ne_ignore_of_eq_error h1 hs) hc
      | ok sv =>
          cases hd : evalH apps st row d with
          | error err => simpa [hs, hd] using fun hc => (ne_ignore_of_eq_error h2 hd) hc
          | ok dv =>
              cases hr : evalHPairs apps st row rest with
              | error err =>
                  simpa [hs, hd, hr] using fun hc => (ne_ignore_of_eq_error h3 hr) hc
              | ok rs => simp [hs, hd, hr]

end

/-! ## The claims -/

/-- C1: the spec claims the diff reports as changed exactly the fields
present in both states whose values differ, plus per-side additions and
removals, and that for oldState (name A, age 5) and newState (name A,
age 6) the diff is exactly (age 6).  The code iterates the symmetric
difference of the key sets (`olddict.keys() ^ newdict.keys()`) instead
of their intersection, so on the claimed input it computes an empty diff
and the driver reports "No changes"; and whenever the key sets differ at
all, the comprehension body indexes a dict that lacks the key and raises
`KeyError`, so additions and removals are never reported either. -/
theorem diff_symmetric_difference_reports_no_changes :
    objectDiff [("name", PyValue.str "A"), ("age", PyValue.int 5)]
        [("name", PyValue.str "A"), ("age", PyValue.int 6)]
      = Except.ok ([], [], []) ∧
    objectDiff [("name", PyValue.str "A"), ("gone", PyValue.int 1)]
        [("name", PyValue.str "A")]
      = Except.error PyErr.keyError :=
  ⟨rfl, rfl⟩

/-- C2: the spec (and the command help text) claim the directive
`+app.Author.1.email:D` marks `email` of the ModelDefinition keyed
(app, Author, 1) as a natural-key component.  The code tests
`app_model.startswith("*")`, so the leading `+` is not recognised as the
marker, is not stripped, and the parse fails looking up the nonexistent
app label `+app`; the same directive written with `*` produces exactly
the registry the claim describes. -/
theorem plus_marker_not_recognized :
    parseDirectives appsAuthor ["+app.Author.1.email:D"]
      = Except.error PyErr.lookupError ∧
    parseDirectives appsAuthor ["*app.Author.1.email:D", "app.Author.1.first_name:C"]
      = Except.ok [("app.Author.1", ⟨⟨"app", "Author", ["email", "first_name"], []⟩,
          [("email", ⟨⟨"email", false⟩, "D", true⟩),
           ("first_name", ⟨⟨"first_name", false⟩, "C", false⟩)]⟩)] :=
  ⟨rfl, rfl⟩

/-- C3: the spec claims `merge([(10,20),(2,None)]) == [(2,None)]`, the
unbounded end absorbing the bounded overlapping range.  In the code the
two ranges do overlap, but the extension guard `r[1] > combined[-1][1]`
compares `20 > None`, which raises `TypeError`: `combine_ranges`
terminates abnormally instead of returning the merged interval. -/
theorem merge_mixed_bounds_raises_type_error :
    combine_ranges [(some 10, some 20), (some 2, Option.none)]
      = Except.error PyErr.typeError :=
  rfl

/-- C4: the spec claims that without the yes flag the driver asks for
confirmation exactly once and a negative answer cancels the import.  The
code guards the prompt with `if "yes" not in options:`, and the options
dict always contains the key `yes` (the flag is registered with a
default), so the prompt is never shown and a hypothetical negative
answer can never raise the cancellation: the confirmation outcome is
(no prompt, no cancellation) for every answer. -/
theorem confirmation_never_prompted :
    confirmationStep optionKeys "n" = ⟨false, false⟩ :=
  rfl

/-- C5: the spec claims that an `IgnoreObject` raised while resolving one
ModelDefinition omits exactly that one instance and row processing
continues normally.  In the code the `except IgnoreObject: pass` handler
leaves the loop variables `newversion, oldversion` holding their values
from the previous iteration, so the previous model instance is appended
to the row report a second time; and when the very first resolution of
the session raises the signal, the variables are unbound and reading
`newversion` raises `NameError`, aborting the session. -/
theorem ignore_object_reuses_stale_newversion :
    rowLoop (fun m => if m = "app.A" then Except.ok (PyValue.obj 7, PyValue.none)
                      else Except.error PyErr.ignoreObject)
        ["app.A", "app.B"] Option.none []
      = Except.ok [(PyValue.obj 7, PyValue.none), (PyValue.obj 7, PyValue.none)] ∧
    rowLoop (fun _ => Except.error PyErr.ignoreObject) ["app.A"] Option.none []
      = Except.error PyErr.nameError :=
  ⟨rfl, rfl⟩

/-- C6 (counterexample): the claim says that when some directive of a
model marks a field as natural-key, exactly the marked fields end up
natural-key.  With the directives `*app.M.a:A`, `app.M.a:B`, `app.M.b:C`
the first directive marks field `a`, so by the claim exactly `a` should
be natural-key; but the second directive overwrites the descriptor of
`a` with an unmarked one, the registry finishes parsing with zero
natural-key fields, and the promotion pass then makes both `a` and the
never-marked `b` natural-key. -/
theorem promotion_ignores_overwritten_marks :
    parseDirectives appsM ["*app.M.a:A", "app.M.a:B", "app.M.b:C"]
      = Except.ok [("app.M", ⟨⟨"app", "M", ["a", "b"], ["tags"]⟩,
          [("a", ⟨⟨"a", false⟩, "B", false⟩), ("b", ⟨⟨"b", false⟩, "C", false⟩)]⟩)] ∧
    promoteNaturalKeys [("app.M", ⟨⟨"app", "M", ["a", "b"], ["tags"]⟩,
          [("a", ⟨⟨"a", false⟩, "B", false⟩), ("b", ⟨⟨"b", false⟩, "C", false⟩)]⟩)]
      = [("app.M", ⟨⟨"app", "M", ["a", "b"], ["tags"]⟩,
          [("a", ⟨⟨"a", false⟩, "B", true⟩), ("b", ⟨⟨"b", false⟩, "C", true⟩)]⟩)] :=
  ⟨rfl, rfl⟩

/-- C6 (amended): after all directives are parsed — each field descriptor
carrying the flag of the last directive that targeted the field, later
directives overwriting earlier ones — the normalization pass, applied
once to the parsed registry and never per row, leaves every
ModelDefinition with the same model and field names and with natural-key
flags determined thus: if no field descriptor is flagged, every field
becomes natural-key; otherwise the entry is left exactly as parsed. -/
theorem natural_key_promotion_after_parse (apps : List PyModel) (args : List String)
    (reg : Registry String) (_hparse : parseDirectives apps args = Except.ok reg)
    (key : String) (entry : ModelEntry String)
    (h2 : lookupA (promoteNaturalKeys reg) key = some entry) :
    ∃ entry0 : ModelEntry String, lookupA reg key = some entry0 ∧
      entry.model = entry0.model ∧
      entry.fields.map Prod.fst = entry0.fields.map Prod.fst ∧
      ((∀ p ∈ entry0.fields, p.2.is_natural_key = false) →
        ∀ q ∈ entry.fields, q.2.is_natural_key = true) ∧
      ((∃ p ∈ entry0.fields, p.2.is_natural_key = true) → entry = entry0) := by
  rw [lookupA_promote] at h2
  obtain ⟨entry0, h0, hpe⟩ := Option.map_eq_some'.mp h2
  subst hpe
  by_cases hany : entry0.fields.any (fun p => p.2.is_natural_key) = true
  · have hpe2 : promoteEntry entry0 = entry0 := by simp [promoteEntry, hany]
    refine ⟨entry0, h0, by rw [hpe2], by rw [hpe2], ?_, ?_⟩
    · intro hall
      exfalso
      obtain ⟨x, hx, hpx⟩ := List.any_eq_true.mp hany
      rw [hall x hx] at hpx
      cases hpx
    · intro _
      rw [hpe2]
  · have hanyf : entry0.fields.any (fun p => p.2.is_natural_key) = false :=
      Bool.eq_false_iff.mpr hany
    have hpe2 : promoteEntry entry0
        = { entry0 with fields :=
              entry0.fields.map (fun p => (p.1, { p.2 with is_natural_key := true })) } := by
      simp [promoteEntry, hanyf]
    refine ⟨entry0, h0, by rw [hpe2], ?_, ?_, ?_⟩
    · rw [hpe2]
      simp
    · intro _ q hq
      rw [hpe2] at hq
      simp only [List.mem_map] at hq
      obtain ⟨a, _, rfl⟩ := hq
      rfl
    · rintro ⟨x, hx, hpx⟩
      exfalso
      have hx2 : entry0.fields.any (fun p => p.2.is_natural_key) = true :=
        List.any_eq_true.mpr ⟨x, hx, hpx⟩
      rw [hanyf] at hx2
      cases hx2

/-- Witness for the amended C6 theorem: parsing the single unmarked
directive `app.M.a:A` and promoting leaves field `a` natural-key. -/
theorem natural_key_promotion_after_parse_witness :
    ∃ entry0 : ModelEntry String, lookupA regPromoteW "app.M" = some entry0 ∧
      (⟨⟨"app", "M", ["a", "b"], ["tags"]⟩,
        [("a", ⟨⟨"a", false⟩, "A", true⟩)]⟩ : ModelEntry String).model = entry0.model ∧
      (⟨⟨"app", "M", ["a", "b"], ["tags"]⟩,
        [("a", ⟨⟨"a", false⟩, "A", true⟩)]⟩ : ModelEntry String).fields.map Prod.fst
        = entry0.fields.map Prod.fst ∧
      ((∀ p ∈ entry0.fields, p.2.is_natural_key = false) →
        ∀ q ∈ (⟨⟨"app", "M", ["a", "b"], ["tags"]⟩,
          [("a", ⟨⟨"a", false⟩, "A", true⟩)]⟩ : ModelEntry String).fields,
          q.2.is_natural_key = true) ∧
      ((∃ p ∈ entry0.fields, p.2.is_natural_key = true) →
        (⟨⟨"app", "M", ["a", "b"], ["tags"]⟩,
          [("a", ⟨⟨"a", false⟩, "A", true⟩)]⟩ : ModelEntry String) = entry0) :=
  natural_key_promotion_after_parse appsM ["app.M.a:A"] regPromoteW rfl "app.M"
    ⟨⟨"app", "M", ["a", "b"], ["tags"]⟩, [("a", ⟨⟨"a", false⟩, "A", true⟩)]⟩ rfl

/-- C7: for every ModelDefinition (fields being a dict, their metadata
names are distinct) and every row context, if any natural-key field
expression evaluates to a falsy value, `importinstance` returns the skip
result `(None, False)`, performs no store call at all, and raises no
error. -/
theorem resolver_skips_on_falsy_natural_key (st : Store)
    (entry : ModelEntry (Row → PyValue)) (row : Row)
    (hnodup : ((entry.fields.filter (fun p => p.2.is_natural_key)).map
        (fun p => p.2.modelfield.name)).Nodup)
    (hfalsy : ∃ p ∈ entry.fields, p.2.is_natural_key = true ∧
        truthy (p.2.expression row) = false) :
    importinstance st entry evalDenote row
      = Except.ok ((PyValue.none, PyValue.bool false), []) := by
  obtain ⟨p, hp, hnk, hfal⟩ := hfalsy
  have hmemf : p ∈ entry.fields.filter (fun q => q.2.is_natural_key) :=
    List.mem_filter.mpr ⟨hp, hnk⟩
  have hpairs := evalPairs_denote row (entry.fields.filter (fun q => q.2.is_natural_key))
  have hkeys : (((entry.fields.filter (fun q => q.2.is_natural_key)).map
      (fun q => (q.2.modelfield.name, q.2.expression row))).map Prod.fst).Nodup := by
    rw [List.map_map]
    simpa using hnodup
  have hdict := dictOfList_nodup _ hkeys
  have hall : ((entry.fields.filter (fun q => q.2.is_natural_key)).map
      (fun q => (q.2.modelfield.name, q.2.expression row))).all
      (fun q => truthy q.2) = false := by
    rw [List.all_eq_false]
    exact ⟨_, List.mem_map_of_mem _ hmemf, by simp [hfal]⟩
  unfold importinstance
  rw [hpairs]
  simp [hdict, hall]

/-- Witness for C7: a one-field definition whose natural-key expression
denotes the empty string is skipped with no store calls. -/
theorem resolver_skips_on_falsy_natural_key_witness :
    importinstance storeEmpty entryFalsyW evalDenote []
      = Except.ok ((PyValue.none, PyValue.bool false), []) :=
  resolver_skips_on_falsy_natural_key storeEmpty entryFalsyW []
    (by simp [entryFalsyW])
    ⟨("email", ⟨⟨"email", false⟩, fun _ => PyValue.str "", true⟩),
      List.mem_cons_self _ _, rfl, rfl⟩

/-- C8: the spec claims that, for collection-relation fields, multiple
directives for the same fully-qualified field are all retained and each
contributes elements.  The parse loop assigns into the per-model field
dict unconditionally, so a second directive for the relation field
`tags` simply overwrites the first: only the last directive (expression
`B`) survives in the registry. -/
theorem duplicate_collection_directive_overwritten :
    parseDirectives appsM ["app.M.tags:A", "app.M.tags:B"]
      = Except.ok [("app.M", ⟨⟨"app", "M", ["a", "b"], ["tags"]⟩,
          [("tags", ⟨⟨"tags", true⟩, "B", false⟩)]⟩)] :=
  rfl

/-- C9 (counterexample): the claim says no name outside the row-context
bindings and the two helpers is resolvable by an expression.  The name
`len` is bound by neither, yet it resolves (to the builtin), because
CPython injects the builtins module into the globals dict handed to
`eval`. -/
theorem builtin_resolvable_in_eval_environment :
    lookupName [("A", PyValue.str "x")] "len" = some (NameHit.builtinBinding "len") ∧
    "len" ∉ (([("A", PyValue.str "x")] : Row).map Prod.fst) ∧
    "len" ∉ evalGlobalNames := by
  refine ⟨rfl, ?_, ?_⟩ <;> decide

/-- C9 (amended): a name is resolvable in the expression environment
exactly when it is a row-context binding, one of the two helper names
`ref` and `vmap`, or a Python builtin (injected by `eval`); lookup
prefers the row context, then the helpers, then the builtins. -/
theorem eval_environment_name_resolution (row : Row) (n : String) :
    (lookupName row n).isSome ↔
      (lookupA row n).isSome ∨ n ∈ evalGlobalNames ∨ n ∈ builtinNames := by
  unfold lookupName
  cases h : lookupA row n with
  | some v => simp [h]
  | none =>
      by_cases hg : n ∈ evalGlobalNames
      · simp [h, hg]
      · by_cases hb : n ∈ builtinNames <;> simp [h, hg, hb]

/-- C10: `noempty` is the only function of the module that raises the
`IgnoreObject` signal (it does raise it, on the empty string), and it is
not among the names the eval globals bind; consequently, evaluating any
expression built from the documented helper set (row variables,
literals, `ref` calls, `vmap` calls) never raises `IgnoreObject`, and
for model definitions whose expressions come from that set the
`except IgnoreObject` handler branch of the per-row driver loop is
unreachable: `importinstance` never raises the signal. -/
theorem skip_signal_unreachable_from_helper_expressions
    (apps : List PyModel) (st : Store) (row : Row) (entry : ModelEntry HExpr) :
    noempty (PyValue.str "") = Except.error PyErr.ignoreObject ∧
    "noempty" ∉ evalGlobalNames ∧
    (∀ e : HExpr, evalH apps st row e ≠ Except.error PyErr.ignoreObject) ∧
    importinstance st entry (fun e r => evalH apps st r e) row
      ≠ Except.error PyErr.ignoreObject := by
  refine ⟨rfl, by decide, evalH_ne_ignore apps st row, ?_⟩
  exact importinstance_ne_ignore st entry _ row (fun e r => evalH_ne_ignore apps st r e)

end Excel2Django
